import Mathlib

/-!
Verification development for the AzStorage C core (src/AzStorage.c).

The C source is shallowly embedded: pure computations become Lean
functions, C `long` / `curl_off_t` become `Int`, C `size_t` and
`unsigned long` become `Nat` (with explicit `% 2^64` where the C code
relies on unsigned wraparound), buffers become lists, and the network
side of a transfer is an oracle parameter (the codes and body the
transport would deliver).
-/

/-- Embeds `struct ResponseCodes` (AzStorage.h): the outcome of one
transport attempt.  `http` and `curl` are C `long`; `retry_after` is a
C `int`. -/
structure ResponseCodes where
  http : Int
  curl : Int
  retry_after : Int
deriving DecidableEq, Repr

/-- Embeds `isrestretrycode` (AzStorage.c lines 60-79): scans the
process-wide table of HTTP retry codes, then the table of curl retry
codes; returns true iff the status matches either table.  The two
tables, installed by `curl_init`, are passed as explicit parameters. -/
def isrestretrycode (http_codes curl_codes : List Int)
    (rc : ResponseCodes) : Bool :=
  http_codes.contains rc.http || curl_codes.contains rc.curl

/-- Embeds the chunk-offset computation shared by
`curl_writebytes_block_retry_threaded` (AzStorage.c lines 698-706,
`block_firstbyte`) and `curl_readbytes_retry_threaded` (lines 864-872,
`thread_firstbyte`): `firstbyte = i*(datasize/nchunks)` plus `i` when
`i < datasize%nchunks`, else plus `datasize%nchunks`. -/
def chunk_firstbyte (datasize nchunks i : Nat) : Nat :=
  if i < datasize % nchunks then i * (datasize / nchunks) + i
  else i * (datasize / nchunks) + datasize % nchunks

/-- Embeds the chunk-length computation shared by
`curl_writebytes_block_retry_threaded` (AzStorage.c lines 699-704,
`_block_datasize`) and `curl_readbytes_retry_threaded` (lines 865-870,
`_thread_datasize`): the base length `datasize/nchunks`, incremented by
one for the first `datasize%nchunks` chunks. -/
def chunk_datasize (datasize nchunks i : Nat) : Nat :=
  if i < datasize % nchunks then datasize / nchunks + 1
  else datasize / nchunks

lemma chunk_firstbyte_zero (ds n : Nat) : chunk_firstbyte ds n 0 = 0 := by
  unfold chunk_firstbyte
  split <;> omega

lemma chunk_firstbyte_step (ds n i : Nat) :
    chunk_firstbyte ds n (i + 1) =
      chunk_firstbyte ds n i + chunk_datasize ds n i := by
  unfold chunk_firstbyte chunk_datasize
  have h : (i + 1) * (ds / n) = i * (ds / n) + ds / n := by ring
  split <;> split <;> omega

lemma chunk_firstbyte_last (ds n : Nat) (hn : 1 ≤ n) :
    chunk_firstbyte ds n n = ds := by
  unfold chunk_firstbyte
  have hr : ds % n < n := Nat.mod_lt _ hn
  have hdm : n * (ds / n) + ds % n = ds := Nat.div_add_mod ds n
  have hc : n * (ds / n) = n * (ds / n) := rfl
  split <;> omega

lemma chunk_sum (ds n : Nat) :
    ∀ m, (∑ i ∈ Finset.range m, chunk_datasize ds n i) =
      chunk_firstbyte ds n m := by
  intro m
  induction m with
  | zero => simp [chunk_firstbyte_zero]
  | succ k ih => rw [Finset.sum_range_succ, ih, chunk_firstbyte_step]

lemma chunk_firstbyte_mono (ds n : Nat) :
    ∀ i j, i ≤ j → chunk_firstbyte ds n i ≤ chunk_firstbyte ds n j := by
  intro i j hij
  induction hij with
  | refl => exact le_rfl
  | step h ih =>
    exact le_trans ih (by rw [chunk_firstbyte_step]; exact Nat.le_add_right _ _)

lemma chunk_cover (ds n : Nat) (hn : 1 ≤ n) (b : Nat) (hb : b < ds) :
    ∃! i, i < n ∧ chunk_firstbyte ds n i ≤ b ∧
      b < chunk_firstbyte ds n i + chunk_datasize ds n i := by
  have hP0 : chunk_firstbyte ds n 0 ≤ b := by
    rw [chunk_firstbyte_zero]; exact Nat.zero_le b
  obtain ⟨i0, hi0⟩ :
      ∃ i0, i0 = Nat.findGreatest (fun i => chunk_firstbyte ds n i ≤ b) (n - 1) :=
    ⟨_, rfl⟩
  have hi0le : i0 ≤ n - 1 := hi0 ▸ Nat.findGreatest_le _
  have hi0lt : i0 < n := by omega
  have hPi0 : chunk_firstbyte ds n i0 ≤ b := by
    have h5 := Nat.findGreatest_spec (P := fun i => chunk_firstbyte ds n i ≤ b)
      (Nat.zero_le (n - 1)) hP0
    rw [hi0]; exact h5
  have hub : b < chunk_firstbyte ds n i0 + chunk_datasize ds n i0 := by
    rw [← chunk_firstbyte_step]
    by_cases hcase : i0 = n - 1
    · have hn1 : i0 + 1 = n := by omega
      rw [hn1, chunk_firstbyte_last ds n hn]
      exact hb
    · have hnotP : ¬ chunk_firstbyte ds n (i0 + 1) ≤ b := by
        have h3 : Nat.findGreatest (fun i => chunk_firstbyte ds n i ≤ b) (n - 1)
            < i0 + 1 := by omega
        have h4 : i0 + 1 ≤ n - 1 := by omega
        exact Nat.findGreatest_is_greatest
          (P := fun i => chunk_firstbyte ds n i ≤ b) h3 h4
      omega
  refine ⟨i0, ⟨hi0lt, hPi0, hub⟩, ?_⟩
  rintro j ⟨hjn, hjle, hjub⟩
  by_contra hne
  rcases Nat.lt_or_ge j i0 with h | h
  · have h1 : chunk_firstbyte ds n (j + 1) ≤ chunk_firstbyte ds n i0 :=
      chunk_firstbyte_mono ds n (j + 1) i0 (by omega)
    have h2 := chunk_firstbyte_step ds n j
    omega
  · have hj : i0 < j := by omega
    have h1 : chunk_firstbyte ds n (i0 + 1) ≤ chunk_firstbyte ds n j :=
      chunk_firstbyte_mono ds n (i0 + 1) j (by omega)
    have h2 := chunk_firstbyte_step ds n i0
    omega

lemma chunk_datasize_small (ds n i : Nat) (h : ds % n ≤ i) :
    chunk_datasize ds n i = ds / n := by
  unfold chunk_datasize
  split <;> omega

lemma chunk_datasize_large (ds n i : Nat) (h : i < ds % n) :
    chunk_datasize ds n i = ds / n + 1 := by
  unfold chunk_datasize
  split <;> omega

/-- C1: for every `totalSize ≥ 0` and `numChunks ≥ 1`, the chunk plan
computed by `curl_writebytes_block_retry_threaded` and
`curl_readbytes_retry_threaded` assigns exactly `numChunks`
non-negative lengths, each `⌊totalSize/numChunks⌋` or one more, summing
to `totalSize`, with contiguous increasing offsets starting at 0 and
ending at `totalSize`, covering every byte of `[0, totalSize)` exactly
once, and the first `totalSize % numChunks` chunks get the larger
length. -/
theorem C1_chunk_partition (ds n : Nat) (hn : 1 ≤ n) :
    ((List.range n).map (chunk_datasize ds n)).length = n
    ∧ (∀ i, i < n → chunk_datasize ds n i = ds / n ∨
        chunk_datasize ds n i = ds / n + 1)
    ∧ (∑ i ∈ Finset.range n, chunk_datasize ds n i) = ds
    ∧ chunk_firstbyte ds n 0 = 0
    ∧ (∀ i, chunk_firstbyte ds n (i + 1) =
        chunk_firstbyte ds n i + chunk_datasize ds n i)
    ∧ (∀ i j, i ≤ j → chunk_firstbyte ds n i ≤ chunk_firstbyte ds n j)
    ∧ (∀ b, b < ds → ∃! i, i < n ∧ chunk_firstbyte ds n i ≤ b ∧
        b < chunk_firstbyte ds n i + chunk_datasize ds n i)
    ∧ (∀ i, i < ds % n → chunk_datasize ds n i = ds / n + 1)
    ∧ (∀ i, ds % n ≤ i → i < n → chunk_datasize ds n i = ds / n) := by
  refine ⟨by simp, ?_, ?_, chunk_firstbyte_zero ds n, chunk_firstbyte_step ds n,
    chunk_firstbyte_mono ds n, fun b hb => chunk_cover ds n hn b hb,
    fun i h => chunk_datasize_large ds n i h,
    fun i h _ => chunk_datasize_small ds n i h⟩
  · intro i _
    by_cases h : i < ds % n
    · exact Or.inr (chunk_datasize_large ds n i h)
    · exact Or.inl (chunk_datasize_small ds n i (by omega))
  · rw [chunk_sum, chunk_firstbyte_last ds n hn]

/-- C1 witness: the partition theorem applied at `totalSize = 10`,
`numChunks = 3` (lengths 4, 3, 3). -/
theorem C1_chunk_partition_witness :
    1 ≤ 3 ∧ (∑ i ∈ Finset.range 3, chunk_datasize 10 3 i) = 10 :=
  ⟨by norm_num, (C1_chunk_partition 10 3 (by norm_num)).2.2.1⟩

/-- Trace of one run of a retry loop: the returned status (`none` only
when the attempt budget is zero, where the C local `responsecodes`
stays unset), the number of invocations of the wrapped operation and
the number of `exponential_backoff` calls. -/
structure RetryTrace where
  result : Option ResponseCodes
  attempts : Nat
  sleeps : Nat
deriving DecidableEq, Repr

/-- Embeds the retry loop shared by `curl_writebytes_block_retry`
(AzStorage.c lines 648-663), `curl_readbytes_retry` (lines 823-838) and
`curl_refresh_tokens_retry` (lines 514-529):
`for (iretry = 0; iretry < nretry; iretry++) { rc = op(); if
(!isrestretrycode(rc)) break; warn; if (exponential_backoff(...) != 0)
break; }; return rc;`.  `op i` is the status the wrapped operation
returns on attempt `i` (the network is an oracle) and `sleep_fails i`
tells whether the `nanosleep` inside the backoff following attempt `i`
fails.  `i` is the current attempt index and the second argument the
remaining budget. -/
def retry_loop (retryable : ResponseCodes → Bool) (op : Nat → ResponseCodes)
    (sleep_fails : Nat → Bool) : Nat → Nat → RetryTrace
  | _, 0 => ⟨none, 0, 0⟩
  | i, fuel + 1 =>
    if retryable (op i) = false then ⟨some (op i), 1, 0⟩
    else if sleep_fails i then ⟨some (op i), 1, 1⟩
    else
      let t := retry_loop retryable op sleep_fails (i + 1) fuel
      ⟨some (t.result.getD (op i)), t.attempts + 1, t.sleeps + 1⟩

/-- The retry loop as entered by the three `*_retry` functions: attempt
indices start at 0 and the retry classification is `isrestretrycode`
over the configured code tables. -/
def curl_retry (http_codes curl_codes : List Int) (op : Nat → ResponseCodes)
    (sleep_fails : Nat → Bool) (nretry : Nat) : RetryTrace :=
  retry_loop (isrestretrycode http_codes curl_codes) op sleep_fails 0 nretry

lemma retry_loop_stop (retryable : ResponseCodes → Bool)
    (op : Nat → ResponseCodes) (sleep_fails : Nat → Bool) (i fuel : Nat)
    (h : retryable (op i) = false) :
    retry_loop retryable op sleep_fails i (fuel + 1) = ⟨some (op i), 1, 0⟩ := by
  simp [retry_loop, h]

lemma retry_loop_sleepfail (retryable : ResponseCodes → Bool)
    (op : Nat → ResponseCodes) (sleep_fails : Nat → Bool) (i fuel : Nat)
    (h1 : retryable (op i) = true) (h2 : sleep_fails i = true) :
    retry_loop retryable op sleep_fails i (fuel + 1) = ⟨some (op i), 1, 1⟩ := by
  simp [retry_loop, h1, h2]

lemma retry_loop_go (retryable : ResponseCodes → Bool)
    (op : Nat → ResponseCodes) (sleep_fails : Nat → Bool) (i fuel : Nat)
    (h1 : retryable (op i) = true) (h2 : sleep_fails i = false) :
    retry_loop retryable op sleep_fails i (fuel + 1) =
      ⟨some (((retry_loop retryable op sleep_fails (i + 1) fuel).result).getD (op i)),
        (retry_loop retryable op sleep_fails (i + 1) fuel).attempts + 1,
        (retry_loop retryable op sleep_fails (i + 1) fuel).sleeps + 1⟩ := by
  simp [retry_loop, h1, h2]

lemma retry_loop_spec (retryable : ResponseCodes → Bool)
    (op : Nat → ResponseCodes) (sleep_fails : Nat → Bool) :
    ∀ fuel i, 1 ≤ fuel →
      1 ≤ (retry_loop retryable op sleep_fails i fuel).attempts ∧
      (retry_loop retryable op sleep_fails i fuel).attempts ≤ fuel ∧
      (retry_loop retryable op sleep_fails i fuel).result =
        some (op (i + (retry_loop retryable op sleep_fails i fuel).attempts - 1)) ∧
      (∀ j, j + 1 < (retry_loop retryable op sleep_fails i fuel).attempts →
        retryable (op (i + j)) = true ∧ sleep_fails (i + j) = false) ∧
      (retryable (op (i + (retry_loop retryable op sleep_fails i fuel).attempts - 1)) = false →
        (retry_loop retryable op sleep_fails i fuel).sleeps =
          (retry_loop retryable op sleep_fails i fuel).attempts - 1) ∧
      (retryable (op (i + (retry_loop retryable op sleep_fails i fuel).attempts - 1)) = true →
        (retry_loop retryable op sleep_fails i fuel).sleeps =
          (retry_loop retryable op sleep_fails i fuel).attempts ∧
        ((retry_loop retryable op sleep_fails i fuel).attempts = fuel ∨
          sleep_fails (i + (retry_loop retryable op sleep_fails i fuel).attempts - 1) = true)) := by
  intro fuel
  induction fuel with
  | zero => intro i h; omega
  | succ fuel ih =>
    intro i _
    by_cases h1 : retryable (op i) = false
    · rw [retry_loop_stop retryable op sleep_fails i fuel h1]
      refine ⟨le_rfl, Nat.le_add_left 1 fuel, by simp, fun j hj => absurd hj (by simp),
        fun _ => rfl, fun hc => ?_⟩
      rw [show i + 1 - 1 = i by omega, h1] at hc
      cases hc
    · have h1' : retryable (op i) = true := by
        revert h1; cases retryable (op i) <;> simp
      by_cases h2 : sleep_fails i = true
      · rw [retry_loop_sleepfail retryable op sleep_fails i fuel h1' h2]
        refine ⟨le_rfl, Nat.le_add_left 1 fuel, by simp, fun j hj => absurd hj (by simp),
          fun hc => ?_, fun _ => ⟨rfl, ?_⟩⟩
        · rw [show i + 1 - 1 = i by omega, h1'] at hc
          cases hc
        · right; rw [show i + 1 - 1 = i by omega]; exact h2
      · have h2' : sleep_fails i = false := by
          revert h2; cases sleep_fails i <;> simp
        rw [retry_loop_go retryable op sleep_fails i fuel h1' h2']
        rcases Nat.eq_zero_or_pos fuel with hf | hf
        · subst hf
          have ht0 : retry_loop retryable op sleep_fails (i + 1) 0 = ⟨none, 0, 0⟩ := rfl
          rw [ht0]
          refine ⟨le_rfl, le_rfl, by simp, fun j hj => absurd hj (by simp),
            fun hc => ?_, fun _ => ⟨rfl, Or.inl rfl⟩⟩
          rw [show i + (0 + 1) - 1 = i by omega, h1'] at hc
          cases hc
        · obtain ⟨ha1, ha2, hres, hall, hnr, hr⟩ := ih (i + 1) hf
          set t' := retry_loop retryable op sleep_fails (i + 1) fuel with ht'
          have hidx : ∀ a : Nat, i + (a + 1) - 1 = i + 1 + a - 1 := fun a => by omega
          refine ⟨by dsimp only; omega, by dsimp only; omega, ?_, ?_, ?_, ?_⟩
          · show some (t'.result.getD (op i)) = some (op (i + (t'.attempts + 1) - 1))
            rw [hres, hidx]
            simp
          · intro j hj
            rcases Nat.eq_zero_or_pos j with hj0 | hj0
            · subst hj0
              exact ⟨by simpa using h1', by simpa using h2'⟩
            · obtain ⟨j', rfl⟩ : ∃ j', j = j' + 1 := ⟨j - 1, by omega⟩
              have hstep := hall j' (by dsimp only at hj; omega)
              rwa [show i + (j' + 1) = i + 1 + j' by omega]
          · show retryable (op (i + (t'.attempts + 1) - 1)) = false →
              t'.sleeps + 1 = t'.attempts + 1 - 1
            intro hc
            rw [hidx] at hc
            have := hnr hc
            omega
          · show retryable (op (i + (t'.attempts + 1) - 1)) = true →
              t'.sleeps + 1 = t'.attempts + 1 ∧
              (t'.attempts + 1 = fuel + 1 ∨
                sleep_fails (i + (t'.attempts + 1) - 1) = true)
            intro hc
            rw [hidx] at hc
            obtain ⟨hs, hor⟩ := hr hc
            refine ⟨by omega, ?_⟩
            rcases hor with h | h
            · left; omega
            · right; rw [hidx]; exact h

/-- C3 counterexample: with an attempt budget of exactly 1 and an
operation whose only attempt returns a retryable status (http 503 with
503 in the configured HTTP retry table), the loop performs the backoff
sleep once — after the final attempt — although the claim says no
backoff sleep is performed after the final attempt. -/
theorem C3_counterexample :
    (curl_retry [503] [] (fun _ => ⟨503, 0, 0⟩) (fun _ => false) 1).attempts = 1 ∧
    (curl_retry [503] [] (fun _ => ⟨503, 0, 0⟩) (fun _ => false) 1).sleeps = 1 := by
  constructor <;> rfl

/-- C3 (amended): for every attempt budget `nretry ≥ 1` the retry loop
invokes the operation between 1 and `nretry` times, returns the last
observed status, continues past an attempt only when its status was
retryable and the backoff sleep succeeded, performs no backoff sleep
after a non-retryable final status, and — amending the claim — after a
retryable final attempt it does perform one more backoff sleep (also
when that is the last budgeted attempt), stopping there either because
the budget is exhausted or because that sleep failed. -/
theorem C3_retry_loop (http_codes curl_codes : List Int)
    (op : Nat → ResponseCodes) (sleep_fails : Nat → Bool)
    (nretry : Nat) (h : 1 ≤ nretry) :
    1 ≤ (curl_retry http_codes curl_codes op sleep_fails nretry).attempts ∧
    (curl_retry http_codes curl_codes op sleep_fails nretry).attempts ≤ nretry ∧
    (curl_retry http_codes curl_codes op sleep_fails nretry).result =
      some (op ((curl_retry http_codes curl_codes op sleep_fails nretry).attempts - 1)) ∧
    (∀ j, j + 1 < (curl_retry http_codes curl_codes op sleep_fails nretry).attempts →
      isrestretrycode http_codes curl_codes (op j) = true ∧ sleep_fails j = false) ∧
    (isrestretrycode http_codes curl_codes
        (op ((curl_retry http_codes curl_codes op sleep_fails nretry).attempts - 1)) = false →
      (curl_retry http_codes curl_codes op sleep_fails nretry).sleeps =
        (curl_retry http_codes curl_codes op sleep_fails nretry).attempts - 1) ∧
    (isrestretrycode http_codes curl_codes
        (op ((curl_retry http_codes curl_codes op sleep_fails nretry).attempts - 1)) = true →
      (curl_retry http_codes curl_codes op sleep_fails nretry).sleeps =
        (curl_retry http_codes curl_codes op sleep_fails nretry).attempts ∧
      ((curl_retry http_codes curl_codes op sleep_fails nretry).attempts = nretry ∨
        sleep_fails ((curl_retry http_codes curl_codes op sleep_fails nretry).attempts - 1) = true)) := by
  have hs := retry_loop_spec (isrestretrycode http_codes curl_codes) op sleep_fails nretry 0 h
  simpa [curl_retry] using hs

/-- C3 witness: budget 3, first attempt retryable (503), second
succeeds (200): the returned status is the one observed on the last
attempt performed. -/
theorem C3_retry_loop_witness :
    1 ≤ 3 ∧
    (curl_retry [503] [] (fun i => if i = 0 then ⟨503, 0, 0⟩ else ⟨200, 0, 0⟩)
      (fun _ => false) 3).result = some ⟨200, 0, 0⟩ := by
  refine ⟨by norm_num, ?_⟩
  have h := (C3_retry_loop [503] []
    (fun i => if i = 0 then ⟨503, 0, 0⟩ else ⟨200, 0, 0⟩)
    (fun _ => false) 3 (by norm_num)).2.2.1
  exact h.trans rfl

/-- Embeds the status-aggregation loop of
`curl_writebytes_block_retry_threaded` (AzStorage.c lines 714-720) and
`curl_readbytes_retry_threaded` (lines 878-884), http axis: starting
from the success seed 200, the per-worker http codes are folded with
`MAX`. -/
def aggregate_http (codes : List Int) : Int := codes.foldl max 200

/-- Same aggregation loop, curl axis: seed `CURLE_OK` (0), folded with
`MAX`. -/
def aggregate_curl (codes : List Int) : Int := codes.foldl max 0

/-- States the spec's words for C2, for refinement comparison: the
plain elementwise maximum over the workers' codes (head of the worker
list as the base, no success seed). -/
def spec_worker_max (c : Int) (cs : List Int) : Int := cs.foldl max c

lemma foldl_max_le_iff (l : List Int) (a c : Int) :
    l.foldl max a ≤ c ↔ a ≤ c ∧ ∀ x ∈ l, x ≤ c := by
  induction l generalizing a with
  | nil => simp
  | cons y ys ih =>
    rw [List.foldl_cons, ih, List.forall_mem_cons, max_le_iff]
    tauto

lemma le_foldl_max_seed (l : List Int) (a : Int) : a ≤ l.foldl max a :=
  ((foldl_max_le_iff l a _).mp le_rfl).1

/-- C2 counterexample: a worker whose transport attempt fails before
any HTTP response is received reports http code 0 (curl leaves
`CURLINFO_RESPONSE_CODE` at 0).  With that single worker, the code's
seeded aggregation yields http 200, while the elementwise maximum over
the workers' statuses is 0 — so the final aggregated status does not
equal the elementwise maximum over all workers' final statuses. -/
theorem C2_counterexample :
    aggregate_http [0] = 200 ∧ spec_worker_max 0 [] = 0 ∧ (200 : Int) ≠ 0 := by
  refine ⟨?_, rfl, by decide⟩
  show max 200 0 = 200
  decide

/-- C2 (amended): the final aggregated status is the elementwise
maximum of the success status (http 200, curl OK) and all workers'
final statuses, computed independently per axis.  Whenever no worker
reports a code below the success encoding (http ≥ 200, curl ≥ 0 — the
reachable situation whenever every transport attempt got an HTTP
response), this equals the plain elementwise maximum over the workers;
aggregating http codes {200,200,503} yields 503 and {200,200,200}
yields 200; and the overall result is success iff every worker ended in
success. -/
theorem C2_status_aggregation (l : List ResponseCodes)
    (hW : ∀ w ∈ l, 200 ≤ w.http ∧ 0 ≤ w.curl) :
    aggregate_http [200, 200, 503] = 503
    ∧ aggregate_http [200, 200, 200] = 200
    ∧ (∀ c cs, l = c :: cs →
        aggregate_http (l.map ResponseCodes.http) =
          spec_worker_max c.http (cs.map ResponseCodes.http) ∧
        aggregate_curl (l.map ResponseCodes.curl) =
          spec_worker_max c.curl (cs.map ResponseCodes.curl))
    ∧ ((aggregate_http (l.map ResponseCodes.http) = 200 ∧
        aggregate_curl (l.map ResponseCodes.curl) = 0) ↔
        ∀ w ∈ l, w.http = 200 ∧ w.curl = 0) := by
  refine ⟨by decide, by decide, ?_, ?_⟩
  · rintro c cs rfl
    obtain ⟨hc1, hc2⟩ := hW c (by simp)
    constructor
    · show (c.http :: cs.map ResponseCodes.http).foldl max 200 =
        (cs.map ResponseCodes.http).foldl max c.http
      rw [List.foldl_cons, max_eq_right hc1]
    · show (c.curl :: cs.map ResponseCodes.curl).foldl max 0 =
        (cs.map ResponseCodes.curl).foldl max c.curl
      rw [List.foldl_cons, max_eq_right hc2]
  · constructor
    · rintro ⟨hh, hc⟩ w hw
      have h1 : w.http ≤ 200 := by
        have := (foldl_max_le_iff (l.map ResponseCodes.http) 200 200).mp (le_of_eq hh)
        exact this.2 _ (List.mem_map_of_mem _ hw)
      have h2 : w.curl ≤ 0 := by
        have := (foldl_max_le_iff (l.map ResponseCodes.curl) 0 0).mp (le_of_eq hc)
        exact this.2 _ (List.mem_map_of_mem _ hw)
      obtain ⟨hw1, hw2⟩ := hW w hw
      exact ⟨le_antisymm h1 hw1, le_antisymm h2 hw2⟩
    · intro hall
      constructor
      · refine le_antisymm ?_ (le_foldl_max_seed _ _)
        show (l.map ResponseCodes.http).foldl max 200 ≤ 200
        rw [foldl_max_le_iff]
        refine ⟨le_rfl, ?_⟩
        intro x hx
        obtain ⟨w, hw, rfl⟩ := List.mem_map.mp hx
        exact le_of_eq (hall w hw).1
      · refine le_antisymm ?_ (le_foldl_max_seed _ _)
        show (l.map ResponseCodes.curl).foldl max 0 ≤ 0
        rw [foldl_max_le_iff]
        refine ⟨le_rfl, ?_⟩
        intro x hx
        obtain ⟨w, hw, rfl⟩ := List.mem_map.mp hx
        exact le_of_eq (hall w hw).2

/-- C2 witness: the aggregation theorem applied to the concrete worker
statuses {(200,0), (200,0), (503,0)}: the overall status is not success
and indeed 503 on the http axis. -/
theorem C2_status_aggregation_witness :
    (∀ w ∈ [ResponseCodes.mk 200 0 0, ⟨200, 0, 0⟩, ⟨503, 0, 0⟩],
      200 ≤ w.http ∧ 0 ≤ w.curl) ∧
    aggregate_http [200, 200, 503] = 503 :=
  ⟨by decide, (C2_status_aggregation
    [⟨200, 0, 0⟩, ⟨200, 0, 0⟩, ⟨503, 0, 0⟩] (by decide)).1⟩

/-- Value of `RAND_MAX` in glibc, the library the code is built
against: `2^31 - 1`. -/
def C_RAND_MAX : Nat := 2147483647

/-- Embeds `exponential_backoff` (AzStorage.c lines 14-35) over exact
rational arithmetic; `draw` is the value `rand()` returns, in
`[0, C_RAND_MAX]`, making the jitter `1.0*rand()/RAND_MAX` equal to
`draw / C_RAND_MAX ∈ [0, 1]`.  Returned is the `timespec` handed to
`nanosleep`, as `(tv_sec, tv_nsec)`: with a positive Retry-After hint
the code sets `sleeptime_nanoseconds = 0` and
`tv_sec = (long)(retry_after + jitter)` (C truncation of a non-negative
double, i.e. floor); otherwise it splits `min(2^i, 256) + jitter` into
its floor and the truncated nanosecond remainder.  In the reachable
domain the double-precision evaluation in C takes the same branch and
produces the same truncated values as this rational model: the computed
jitter lies in `[0, 1]`, equals 1 exactly for `draw = RAND_MAX`, and is
otherwise at least `2^-31`ish away from 1, far beyond the rounding
error, so no truncation boundary is crossed by rounding. -/
def exponential_backoff_request (i : Nat) (retry_after : Int) (draw : Nat) :
    Int × Int :=
  if retry_after > 0 then
    (⌊(retry_after : ℚ) + (draw : ℚ) / (C_RAND_MAX : ℚ)⌋, 0)
  else
    (⌊min ((2 : ℚ) ^ i) 256 + (draw : ℚ) / (C_RAND_MAX : ℚ)⌋,
      ⌊(min ((2 : ℚ) ^ i) 256 + (draw : ℚ) / (C_RAND_MAX : ℚ) -
        (⌊min ((2 : ℚ) ^ i) 256 + (draw : ℚ) / (C_RAND_MAX : ℚ)⌋ : Int)) *
        1000000000⌋)

/-- The sleep duration requested from `nanosleep`, in seconds:
`tv_sec + tv_nsec / 10^9`. -/
def backoff_duration (i : Nat) (retry_after : Int) (draw : Nat) : ℚ :=
  ((exponential_backoff_request i retry_after draw).1 : ℚ) +
    ((exponential_backoff_request i retry_after draw).2 : ℚ) / 1000000000

lemma backoff_frac_nonneg (draw : Nat) :
    0 ≤ (draw : ℚ) / (C_RAND_MAX : ℚ) :=
  div_nonneg (by positivity) (by norm_num [C_RAND_MAX])

lemma backoff_frac_lt_one (draw : Nat) (h : draw < C_RAND_MAX) :
    (draw : ℚ) / (C_RAND_MAX : ℚ) < 1 := by
  rw [div_lt_one (by norm_num [C_RAND_MAX])]
  exact_mod_cast h

lemma backoff_frac_max : ((C_RAND_MAX : Nat) : ℚ) / (C_RAND_MAX : ℚ) = 1 := by
  norm_num [C_RAND_MAX]

lemma backoff_min_cast (i : Nat) :
    ((min ((2 : Int) ^ i) 256 : Int) : ℚ) = min ((2 : ℚ) ^ i) 256 := by
  push_cast
  rfl

lemma backoff_retry_after_eval (i : Nat) (r : Int) (hr : r > 0) (draw : Nat)
    (h : draw < C_RAND_MAX) :
    backoff_duration i r draw = (r : ℚ) := by
  unfold backoff_duration exponential_backoff_request
  rw [if_pos hr]
  have h1 : ⌊(r : ℚ) + (draw : ℚ) / (C_RAND_MAX : ℚ)⌋ = r := by
    rw [Int.floor_int_add,
      Int.floor_eq_zero_iff.mpr ⟨backoff_frac_nonneg draw, backoff_frac_lt_one draw h⟩,
      add_zero]
  rw [h1]
  push_cast
  ring

lemma backoff_retry_after_max_eval (i : Nat) (r : Int) (hr : r > 0) :
    backoff_duration i r C_RAND_MAX = (r : ℚ) + 1 := by
  unfold backoff_duration exponential_backoff_request
  rw [if_pos hr, backoff_frac_max]
  have h1 : ⌊(r : ℚ) + 1⌋ = r + 1 := by
    rw [Int.floor_add_one, Int.floor_intCast]
  rw [h1]
  push_cast
  ring

lemma backoff_exp_floor (i : Nat) (draw : Nat) (h : draw < C_RAND_MAX) :
    ⌊min ((2 : ℚ) ^ i) 256 + (draw : ℚ) / (C_RAND_MAX : ℚ)⌋ =
      min ((2 : Int) ^ i) 256 := by
  rw [← backoff_min_cast, Int.floor_int_add,
    Int.floor_eq_zero_iff.mpr ⟨backoff_frac_nonneg draw, backoff_frac_lt_one draw h⟩,
    add_zero]

lemma backoff_exp_eval (i : Nat) (r : Int) (hr : ¬ r > 0) (draw : Nat)
    (h : draw < C_RAND_MAX) :
    backoff_duration i r draw =
      min ((2 : ℚ) ^ i) 256 +
        (⌊(draw : ℚ) / (C_RAND_MAX : ℚ) * 1000000000⌋ : ℚ) / 1000000000 := by
  unfold backoff_duration exponential_backoff_request
  rw [if_neg hr]
  rw [backoff_exp_floor i draw h, backoff_min_cast]
  congr 2
  ring_nf

lemma backoff_exp_max_eval (i : Nat) (r : Int) (hr : ¬ r > 0) :
    backoff_duration i r C_RAND_MAX = min ((2 : ℚ) ^ i) 256 + 1 := by
  unfold backoff_duration exponential_backoff_request
  rw [if_neg hr, backoff_frac_max]
  have h1 : ⌊min ((2 : ℚ) ^ i) 256 + 1⌋ = min ((2 : Int) ^ i) 256 + 1 := by
    rw [← backoff_min_cast, Int.floor_add_one, Int.floor_intCast]
  rw [h1]
  push_cast [backoff_min_cast]
  ring_nf

/-- C8 counterexample: at the maximal RNG draw (`rand() = RAND_MAX`)
the jitter `1.0*rand()/RAND_MAX` equals exactly 1, so with a
Retry-After hint of 5 seconds the requested sleep duration is exactly
6 seconds, which does not lie in the half-open interval `[5, 6)`
asserted by the claim. -/
theorem C8_counterexample :
    backoff_duration 0 5 C_RAND_MAX = 6 ∧
    ¬ (backoff_duration 0 5 C_RAND_MAX < 5 + 1) := by
  have h : backoff_duration 0 5 C_RAND_MAX = ((5 : Int) : ℚ) + 1 :=
    backoff_retry_after_max_eval 0 5 (by norm_num)
  constructor
  · rw [h]; norm_num
  · rw [h]; norm_num

/-- C8 (amended): for every attempt index `i ≥ 0` and RNG draw
`rand() ≤ RAND_MAX`, the requested sleep duration with no Retry-After
hint lies in the closed interval
`[min(2^i,256), min(2^i,256)+1]`, strictly below the right endpoint
unless the draw is maximal, where it equals it; with a Retry-After hint
`r > 0` the requested duration is exactly `r` (the code zeroes the
nanosecond field and truncates the jitter away) for every non-maximal
draw, and `r + 1` at the maximal draw — so it lies in `[r, r+1]`, again
reaching the right endpoint exactly at the maximal draw. -/
theorem C8_backoff_interval (i : Nat) (r : Int) (draw : Nat)
    (hd : draw ≤ C_RAND_MAX) :
    (r > 0 →
      (r : ℚ) ≤ backoff_duration i r draw ∧
      backoff_duration i r draw ≤ (r : ℚ) + 1 ∧
      (draw < C_RAND_MAX → backoff_duration i r draw = (r : ℚ)) ∧
      (draw = C_RAND_MAX → backoff_duration i r draw = (r : ℚ) + 1))
    ∧ (¬ r > 0 →
      min ((2 : ℚ) ^ i) 256 ≤ backoff_duration i r draw ∧
      backoff_duration i r draw ≤ min ((2 : ℚ) ^ i) 256 + 1 ∧
      (draw < C_RAND_MAX → backoff_duration i r draw < min ((2 : ℚ) ^ i) 256 + 1) ∧
      (draw = C_RAND_MAX → backoff_duration i r draw = min ((2 : ℚ) ^ i) 256 + 1)) := by
  constructor
  · intro hr
    rcases lt_or_eq_of_le hd with hlt | heq
    · have h := backoff_retry_after_eval i r hr draw hlt
      refine ⟨le_of_eq h.symm, ?_, fun _ => h, fun hmax => absurd hmax (by omega)⟩
      rw [h]
      linarith
    · subst heq
      have h := backoff_retry_after_max_eval i r hr
      refine ⟨?_, le_of_eq h, fun hlt => absurd hlt (by omega), fun _ => h⟩
      rw [h]
      linarith
  · intro hr
    rcases lt_or_eq_of_le hd with hlt | heq
    · have h := backoff_exp_eval i r hr draw hlt
      have hns0 : (0 : ℚ) ≤ (⌊(draw : ℚ) / (C_RAND_MAX : ℚ) * 1000000000⌋ : ℚ) := by
        exact_mod_cast Int.floor_nonneg.mpr
          (by positivity)
      have hns1 : (⌊(draw : ℚ) / (C_RAND_MAX : ℚ) * 1000000000⌋ : ℚ) < 1000000000 := by
        have : ⌊(draw : ℚ) / (C_RAND_MAX : ℚ) * 1000000000⌋ < (1000000000 : Int) := by
          rw [Int.floor_lt]
          push_cast
          have := backoff_frac_lt_one draw hlt
          nlinarith
        exact_mod_cast this
      refine ⟨?_, ?_, fun _ => ?_, fun hmax => absurd hmax (by omega)⟩
      · rw [h]
        have : (0 : ℚ) ≤ (⌊(draw : ℚ) / (C_RAND_MAX : ℚ) * 1000000000⌋ : ℚ) / 1000000000 :=
          div_nonneg hns0 (by norm_num)
        linarith
      · rw [h]
        have : (⌊(draw : ℚ) / (C_RAND_MAX : ℚ) * 1000000000⌋ : ℚ) / 1000000000 < 1 := by
          rw [div_lt_one (by norm_num)]
          exact hns1
        linarith
      · rw [h]
        have : (⌊(draw : ℚ) / (C_RAND_MAX : ℚ) * 1000000000⌋ : ℚ) / 1000000000 < 1 := by
          rw [div_lt_one (by norm_num)]
          exact hns1
        linarith
    · subst heq
      have h := backoff_exp_max_eval i r hr
      exact ⟨by rw [h]; linarith, le_of_eq h,
        fun hlt => absurd hlt (by omega), fun _ => h⟩

/-- C8 witness: attempt index 3 with no hint and draw 0 requests
exactly `min(2^3,256) = 8` seconds, inside the stated interval. -/
theorem C8_backoff_interval_witness :
    (0 : Nat) ≤ C_RAND_MAX ∧
    min ((2 : ℚ) ^ (3 : Nat)) 256 ≤ backoff_duration 3 0 0 := by
  refine ⟨Nat.zero_le _, ?_⟩
  exact ((C8_backoff_interval 3 0 0 (Nat.zero_le _)).2 (by norm_num)).1

/-- Embeds `struct ProgressStruct` (AzStorage.c lines 213-218):
`start_time` and `read_timeout` are `unsigned long` seconds (modelled
as `Nat`; in every reachable state `start_time` is a past `time(NULL)`
value, so the unsigned subtraction `now - start_time` is an ordinary
non-negative difference), `dlprev`/`ulprev` are `curl_off_t` byte
counters. -/
structure ProgressStruct where
  start_time : Nat
  read_timeout : Nat
  dlprev : Int
  ulprev : Int
deriving DecidableEq, Repr

/-- Embeds `progress_callback` (AzStorage.c lines 220-244).  `now` is
the current `time(NULL)` (assumed `≥ start_time`, which holds for a
monotone clock since `start_time` was set from an earlier
`time(NULL)`).  Returns the updated state and the return value as a
flag: `true` means the callback returns 1, telling curl to abort the
transfer; `false` means it returns 0. -/
def progress_callback (now : Nat) (ps : ProgressStruct)
    (dlnow ulnow : Int) : ProgressStruct × Bool :=
  if (dlnow - ps.dlprev = 0 ∧ now - ps.start_time ≥ ps.read_timeout) ∨
      (ulnow - ps.ulprev = 0 ∧ now - ps.start_time ≥ ps.read_timeout) then
    (ps, true)
  else if dlnow - ps.dlprev > 0 ∨ ulnow - ps.ulprev > 0 then
    ({ ps with start_time := now, dlprev := dlnow, ulprev := ulnow }, false)
  else
    (ps, false)

/-- C9 counterexample: a pure download that was stalled for longer than
the read timeout and then delivers bytes exactly on this tick.  With
state `(start_time 0, read_timeout 10, dlprev 0, ulprev 0)`, current
time 50 and counters `dlnow = 100`, `ulnow = 0`: the download counter
increased by 100 bytes in this tick, yet the callback signals an abort
(because the upload counter — always 0 during a download — did not
move and the elapsed time exceeds the timeout), and does not reset the
baseline.  The claim says an abort is signalled only when neither
counter increased, and that whenever bytes moved the baseline and timer
are reset with no abort. -/
theorem C9_counterexample :
    progress_callback 50 ⟨0, 10, 0, 0⟩ 100 0 = (⟨0, 10, 0, 0⟩, true) ∧
    (100 : Int) - (0 : Int) > 0 := by
  constructor
  · rfl
  · decide

/-- C9 (amended): on each progress tick an abort is signalled iff the
elapsed time since the last reset is at least the read timeout AND at
least one of the two counters (download, upload) did not increase in
this tick — not only when neither increased; when no abort is
signalled, the baseline counters and the timer are reset exactly when
some counter increased, and the state is left unchanged otherwise;
when an abort is signalled the state is also left unchanged. -/
theorem C9_progress_callback (now : Nat) (ps : ProgressStruct)
    (dlnow ulnow : Int) (hmono : ps.start_time ≤ now) :
    ((progress_callback now ps dlnow ulnow).2 = true ↔
      (now - ps.start_time ≥ ps.read_timeout ∧
        (dlnow - ps.dlprev = 0 ∨ ulnow - ps.ulprev = 0)))
    ∧ ((progress_callback now ps dlnow ulnow).2 = true →
        (progress_callback now ps dlnow ulnow).1 = ps)
    ∧ ((progress_callback now ps dlnow ulnow).2 = false →
        (dlnow - ps.dlprev > 0 ∨ ulnow - ps.ulprev > 0) →
        (progress_callback now ps dlnow ulnow).1 =
          { ps with start_time := now, dlprev := dlnow, ulprev := ulnow })
    ∧ ((progress_callback now ps dlnow ulnow).2 = false →
        ¬ (dlnow - ps.dlprev > 0 ∨ ulnow - ps.ulprev > 0) →
        (progress_callback now ps dlnow ulnow).1 = ps) := by
  unfold progress_callback
  by_cases h1 : (dlnow - ps.dlprev = 0 ∧ now - ps.start_time ≥ ps.read_timeout) ∨
      (ulnow - ps.ulprev = 0 ∧ now - ps.start_time ≥ ps.read_timeout)
  · rw [if_pos h1]
    refine ⟨⟨fun _ => ?_, fun _ => rfl⟩, fun _ => rfl, fun hf => absurd hf (by simp),
      fun hf => absurd hf (by simp)⟩
    rcases h1 with ⟨ha, hb⟩ | ⟨ha, hb⟩
    · exact ⟨hb, Or.inl ha⟩
    · exact ⟨hb, Or.inr ha⟩
  · rw [if_neg h1]
    by_cases h2 : dlnow - ps.dlprev > 0 ∨ ulnow - ps.ulprev > 0
    · rw [if_pos h2]
      refine ⟨⟨fun hf => absurd hf (by simp), fun hc => ?_⟩,
        fun hf => absurd hf (by simp), fun _ _ => rfl, fun _ hc => absurd h2 hc⟩
      exact absurd (by tauto) h1
    · rw [if_neg h2]
      refine ⟨⟨fun hf => absurd hf (by simp), fun hc => ?_⟩,
        fun hf => absurd hf (by simp), fun _ hc => absurd hc h2, fun _ _ => rfl⟩
      have hd : ¬ dlnow - ps.dlprev > 0 := fun hx => h2 (Or.inl hx)
      have hu : ¬ ulnow - ps.ulprev > 0 := fun hx => h2 (Or.inr hx)
      exact absurd (by tauto) h1

/-- C9 witness: steady progress (download moved, elapsed below the
timeout) resets the baseline and timer. -/
theorem C9_progress_callback_witness :
    (0 : Nat) ≤ 5 ∧
    (progress_callback 5 ⟨0, 10, 0, 0⟩ 100 0).1 =
      { (⟨0, 10, 0, 0⟩ : ProgressStruct) with
        start_time := 5, dlprev := 100, ulprev := 0 } := by
  refine ⟨Nat.zero_le _, ?_⟩
  exact (C9_progress_callback 5 ⟨0, 10, 0, 0⟩ 100 0 (by norm_num)).2.2.1
    (by decide) (by decide)

/-- Embeds `struct DataStruct` (AzStorage.h) as used by the range
download: `data` is the worker's destination sub-buffer (of capacity
`datasize` bytes), `currentsize` the cumulative bytes delivered so
far. -/
structure DataStruct where
  data : List Nat
  datasize : Nat
  currentsize : Nat
deriving DecidableEq, Repr

/-- The effect of `memcpy(datastruct->data + currentsize, ptr, n)`:
replace the `n` bytes of the buffer starting at offset `currentsize`
with the delivered chunk. -/
def buffer_write (buf : List Nat) (off : Nat) (chunk : List Nat) : List Nat :=
  buf.take off ++ chunk ++ buf.drop (off + chunk.length)

/-- Embeds `write_callback_readdata` (AzStorage.c lines 532-549): the
curl write callback of the range download.  `chunk` is the delivered
byte run (`ptr`, `size*nmemb` bytes — the length of an actual memory
object, so `Nat` arithmetic is exact).  If the cumulative size would
exceed the assigned capacity, nothing is written and 0 is returned
(aborting the transfer); otherwise the bytes are copied at offset
`currentsize` and the chunk length is returned. -/
def write_callback_readdata (chunk : List Nat) (ds : DataStruct) :
    DataStruct × Nat :=
  if ds.currentsize + chunk.length > ds.datasize then (ds, 0)
  else
    ({ ds with
        data := buffer_write ds.data ds.currentsize chunk
        currentsize := ds.currentsize + chunk.length }, chunk.length)

/-- Folds a whole sequence of callback deliveries, stopping the
transfer (as curl does when the callback returns 0) at the first
refused delivery. -/
def deliver_all (chunks : List (List Nat)) (ds : DataStruct) : DataStruct :=
  match chunks with
  | [] => ds
  | c :: cs =>
    if (write_callback_readdata c ds).2 = 0 then ds
    else deliver_all cs (write_callback_readdata c ds).1

lemma write_callback_overrun (chunk : List Nat) (ds : DataStruct)
    (h : ds.currentsize + chunk.length > ds.datasize) :
    write_callback_readdata chunk ds = (ds, 0) := by
  unfold write_callback_readdata
  rw [if_pos h]

lemma write_callback_ok (chunk : List Nat) (ds : DataStruct)
    (h : ¬ ds.currentsize + chunk.length > ds.datasize) :
    write_callback_readdata chunk ds =
      ({ ds with
          data := buffer_write ds.data ds.currentsize chunk
          currentsize := ds.currentsize + chunk.length }, chunk.length) := by
  unfold write_callback_readdata
  rw [if_neg h]

lemma write_callback_inv (chunk : List Nat) (ds : DataStruct)
    (h : ds.currentsize ≤ ds.datasize) :
    (write_callback_readdata chunk ds).1.currentsize ≤
      (write_callback_readdata chunk ds).1.datasize := by
  by_cases hc : ds.currentsize + chunk.length > ds.datasize
  · rw [write_callback_overrun chunk ds hc]; exact h
  · rw [write_callback_ok chunk ds hc]; dsimp only; omega

lemma buffer_write_preserves (buf : List Nat) (off : Nat) (chunk : List Nat)
    (j : Nat) (hj : off + chunk.length ≤ j) :
    (buffer_write buf off chunk).get? j = buf.get? j := by
  unfold buffer_write
  rcases Nat.lt_or_ge j buf.length with hjb | hjb
  · have hoff : off ≤ buf.length := by omega
    have hlen : (List.take off buf).length = off := by
      rw [List.length_take]
      exact min_eq_left hoff
    rw [List.get?_append_right (by rw [List.length_append, hlen]; omega),
      List.length_append, hlen, List.get?_drop]
    congr 1
    omega
  · rw [List.get?_eq_none.mpr hjb, List.get?_eq_none.mpr]
    simp only [List.length_append, List.length_take, List.length_drop]
    omega

lemma deliver_all_inv (chunks : List (List Nat)) :
    ∀ ds : DataStruct, ds.currentsize ≤ ds.datasize →
      (deliver_all chunks ds).currentsize ≤ (deliver_all chunks ds).datasize := by
  induction chunks with
  | nil => intro ds h; exact h
  | cons c cs ih =>
    intro ds h
    unfold deliver_all
    by_cases hz : (write_callback_readdata c ds).2 = 0
    · rw [if_pos hz]; exact h
    · rw [if_neg hz]
      exact ih _ (write_callback_inv c ds h)

lemma write_callback_datasize (chunk : List Nat) (ds : DataStruct) :
    (write_callback_readdata chunk ds).1.datasize = ds.datasize := by
  by_cases hc : ds.currentsize + chunk.length > ds.datasize
  · rw [write_callback_overrun chunk ds hc]
  · rw [write_callback_ok chunk ds hc]

lemma write_callback_beyond (chunk : List Nat) (ds : DataStruct)
    (hinv : ds.currentsize ≤ ds.datasize) (j : Nat) (hj : ds.datasize ≤ j) :
    (write_callback_readdata chunk ds).1.data.get? j = ds.data.get? j := by
  by_cases hc : ds.currentsize + chunk.length > ds.datasize
  · rw [write_callback_overrun chunk ds hc]
  · rw [write_callback_ok chunk ds hc]
    exact buffer_write_preserves ds.data ds.currentsize chunk j (by omega)

lemma deliver_all_beyond (chunks : List (List Nat)) :
    ∀ ds : DataStruct, ds.currentsize ≤ ds.datasize →
      ∀ j, ds.datasize ≤ j →
        (deliver_all chunks ds).data.get? j = ds.data.get? j := by
  induction chunks with
  | nil => intro ds _ j _; rfl
  | cons c cs ih =>
    intro ds h j hj
    unfold deliver_all
    by_cases hz : (write_callback_readdata c ds).2 = 0
    · rw [if_pos hz]
    · rw [if_neg hz]
      have h1 := ih (write_callback_readdata c ds).1 (write_callback_inv c ds h) j
        (by rw [write_callback_datasize]; exact hj)
      rw [h1, write_callback_beyond c ds h j hj]

/-- C5: during a range download, a write-callback delivery whose bytes
would push the cumulative count past the assigned capacity writes
nothing into the buffer and returns 0 (aborting the transfer);
consequently, starting from any state within capacity, after any
sequence of deliveries the cumulative count never exceeds the capacity
and no position at or beyond the capacity is ever written. -/
theorem C5_overrun_guard (chunk : List Nat) (ds : DataStruct)
    (chunks : List (List Nat)) (hinv : ds.currentsize ≤ ds.datasize) :
    (ds.currentsize + chunk.length > ds.datasize →
      write_callback_readdata chunk ds = (ds, 0))
    ∧ (write_callback_readdata chunk ds).1.currentsize ≤
        (write_callback_readdata chunk ds).1.datasize
    ∧ (deliver_all chunks ds).currentsize ≤ (deliver_all chunks ds).datasize
    ∧ (∀ j, ds.datasize ≤ j →
        (deliver_all chunks ds).data.get? j = ds.data.get? j) :=
  ⟨fun h => write_callback_overrun chunk ds h,
    write_callback_inv chunk ds hinv,
    deliver_all_inv chunks ds hinv,
    fun j hj => deliver_all_beyond chunks ds hinv j hj⟩

/-- C5 witness: a worker with capacity 2 that already received 1 byte
refuses a 2-byte delivery, leaving its state unchanged. -/
theorem C5_overrun_guard_witness :
    (1 : Nat) ≤ 2 ∧
    write_callback_readdata [7, 7] ⟨[9, 9], 2, 1⟩ = (⟨[9, 9], 2, 1⟩, 0) := by
  refine ⟨by norm_num, ?_⟩
  exact (C5_overrun_guard [7, 7] ⟨[9, 9], 2, 1⟩ [] (by norm_num)).1 (by norm_num)

/-- Embeds the quote-scanning loop of `get_next_quoted_string`
(AzStorage.c lines 164-177): walk the string; at the first quote record
`i1 = i+1`, at the second record `i2 = i-1`, at a third stop; a
non-quote character just advances.  `i` is the current index, the two
`Option Nat` the recorded indices (`none` for the C sentinel -1). -/
def find_quote_indices : List Char → Nat → Option Nat → Option Nat →
    Option Nat × Option Nat
  | [], _, i1, i2 => (i1, i2)
  | c :: rest, i, none, i2 =>
    if c = '"' then find_quote_indices rest (i + 1) (some (i + 1)) i2
    else find_quote_indices rest (i + 1) none i2
  | c :: rest, i, some i1, none =>
    if c = '"' then find_quote_indices rest (i + 1) (some i1) (some (i - 1))
    else find_quote_indices rest (i + 1) (some i1) none
  | c :: rest, i, some i1, some i2 =>
    if c = '"' then (some i1, some i2)
    else find_quote_indices rest (i + 1) (some i1) (some i2)

/-- Embeds `get_next_quoted_string` (AzStorage.c lines 159-180): the
value written is `data[i1..i2]`, the characters strictly between the
first two quotes (`strncpy(value, data+i1, i2-i1+1)`; the length
`i2-i1+1` is computed here as `i2+1-i1`, identical whenever a second
quote follows a first).  When the data holds fewer than two quotes the
C code calls `strncpy` with the indices still at -1 — undefined
behaviour; the model returns `[]` there and no claim exercises that
case. -/
def get_next_quoted_string (data : List Char) : List Char :=
  match find_quote_indices data 0 none none with
  | (some i1, some i2) => (data.drop i1).take (i2 + 1 - i1)
  | _ => []

/-- The three caller-owned buffers that the token-response scanners
write: `bearer_token`, `refresh_token` and `expiry`. -/
structure TokState where
  bearer : List Char
  refresh : List Char
  expiry : Nat
deriving DecidableEq, Repr

/-- The literal field marker `"access_token"` (14 characters, quotes
included) that the scanners match with `strncmp(_data, ..., 14)`. -/
def access_token_marker : List Char :=
  ['"', 'a', 'c', 'c', 'e', 's', 's', '_', 't', 'o', 'k', 'e', 'n', '"']

/-- The literal field marker `"refresh_token"` (15 characters). -/
def refresh_token_marker : List Char :=
  ['"', 'r', 'e', 'f', 'r', 'e', 's', 'h', '_', 't', 'o', 'k', 'e', 'n', '"']

/-- The literal field marker `"expires_on"` (12 characters). -/
def expires_on_marker : List Char :=
  ['"', 'e', 'x', 'p', 'i', 'r', 'e', 's', '_', 'o', 'n', '"']

/-- Embeds the `sscanf(expiry_string, "%lu", expiry)` call: skip
leading blanks, read a run of decimal digits into an `unsigned long`
(reduced mod `2^64`); when no digits match, `sscanf` assigns nothing
and the old value stays. -/
def parse_ulong (s : List Char) (old : Nat) : Nat :=
  if ((s.dropWhile (fun c => c = ' ')).takeWhile Char.isDigit) = [] then old
  else (((s.dropWhile (fun c => c = ' ')).takeWhile Char.isDigit).foldl
    (fun acc c => acc * 10 + (c.toNat - 48)) 0) % 2 ^ 64

/-- Embeds the scanning loop of `update_tokens_from_refresh_token`
(AzStorage.c lines 182-211): while characters remain, try the three
field markers in order (`"access_token"`, `"refresh_token"`,
`"expires_on"`); on a match advance past the marker (14/15/12
characters), extract the next quoted string from there into the
matching field (the expiry via `sscanf("%lu")`), and continue scanning
from just past the marker; otherwise advance one character.  The loop
advances at least one character per iteration, so the remaining length
bounds the iteration count; the explicit `fuel`, started at the string
length by the wrapper below, only makes that recursion structural and
is never exhausted before the characters are. -/
def update_tokens_from_refresh_token_loop :
    Nat → List Char → TokState → TokState
  | 0, _, st => st
  | _ + 1, [], st => st
  | fuel + 1, l@(_ :: rest), st =>
    if l.take 14 = access_token_marker then
      update_tokens_from_refresh_token_loop fuel (l.drop 14)
        { st with bearer := get_next_quoted_string (l.drop 14) }
    else if l.take 15 = refresh_token_marker then
      update_tokens_from_refresh_token_loop fuel (l.drop 15)
        { st with refresh := get_next_quoted_string (l.drop 15) }
    else if l.take 12 = expires_on_marker then
      update_tokens_from_refresh_token_loop fuel (l.drop 12)
        { st with expiry := parse_ulong (get_next_quoted_string (l.drop 12)) st.expiry }
    else update_tokens_from_refresh_token_loop fuel rest st

/-- `update_tokens_from_refresh_token` (AzStorage.c lines 182-211),
entered at the start of the response body. -/
def update_tokens_from_refresh_token (data : List Char) (st : TokState) :
    TokState :=
  update_tokens_from_refresh_token_loop data.length data st

/-- Embeds the scanning loop of `update_tokens_from_client_secret`
(AzStorage.c lines 343-367): identical to the refresh-token scanner but
recognizing only `"access_token"` and `"expires_on"`. -/
def update_tokens_from_client_secret_loop :
    Nat → List Char → TokState → TokState
  | 0, _, st => st
  | _ + 1, [], st => st
  | fuel + 1, l@(_ :: rest), st =>
    if l.take 14 = access_token_marker then
      update_tokens_from_client_secret_loop fuel (l.drop 14)
        { st with bearer := get_next_quoted_string (l.drop 14) }
    else if l.take 12 = expires_on_marker then
      update_tokens_from_client_secret_loop fuel (l.drop 12)
        { st with expiry := parse_ulong (get_next_quoted_string (l.drop 12)) st.expiry }
    else update_tokens_from_client_secret_loop fuel rest st

/-- `update_tokens_from_client_secret` (AzStorage.c lines 343-367). -/
def update_tokens_from_client_secret (data : List Char) (st : TokState) :
    TokState :=
  update_tokens_from_client_secret_loop data.length data st

lemma refresh_loop_fuel_irrel :
    ∀ f (l : List Char) (st : TokState), l.length ≤ f →
      update_tokens_from_refresh_token_loop f l st =
        update_tokens_from_refresh_token_loop l.length l st := by
  intro f
  induction f using Nat.strong_induction_on with
  | _ f ih =>
    intro l st hl
    rcases f with _ | f
    · have hnil : l = [] := List.eq_nil_of_length_eq_zero (by omega)
      subst hnil
      rfl
    · rcases l with _ | ⟨c, rest⟩
      · rfl
      · have hlen : (c :: rest).length = rest.length + 1 := rfl
        rw [hlen]
        simp only [update_tokens_from_refresh_token_loop]
        have hd14 : ((c :: rest).drop 14).length ≤ rest.length := by
          simp only [List.length_drop, List.length_cons]
          omega
        have hd15 : ((c :: rest).drop 15).length ≤ rest.length := by
          simp only [List.length_drop, List.length_cons]
          omega
        have hd12 : ((c :: rest).drop 12).length ≤ rest.length := by
          simp only [List.length_drop, List.length_cons]
          omega
        have hrf : rest.length ≤ f := by
          simp only [List.length_cons] at hl
          omega
        split_ifs with h1 h2 h3
        · rw [ih f (by omega) _ _ (le_trans hd14 hrf),
            ih rest.length (by omega) _ _ hd14]
        · rw [ih f (by omega) _ _ (le_trans hd15 hrf),
            ih rest.length (by omega) _ _ hd15]
        · rw [ih f (by omega) _ _ (le_trans hd12 hrf),
            ih rest.length (by omega) _ _ hd12]
        · rw [ih f (by omega) _ _ hrf]

lemma refresh_scan_access (rest : List Char) (st : TokState) :
    update_tokens_from_refresh_token (access_token_marker ++ rest) st =
      update_tokens_from_refresh_token rest
        { st with bearer := get_next_quoted_string rest } := by
  unfold update_tokens_from_refresh_token
  have htake : ('"' :: (['a', 'c', 'c', 'e', 's', 's', '_', 't', 'o', 'k', 'e', 'n', '"'] ++ rest)).take 14
      = access_token_marker := by
    show (access_token_marker ++ rest).take 14 = access_token_marker
    rw [show (14 : Nat) = access_token_marker.length from rfl]
    exact List.take_left _ _
  have hdrop : ('"' :: (['a', 'c', 'c', 'e', 's', 's', '_', 't', 'o', 'k', 'e', 'n', '"'] ++ rest)).drop 14
      = rest := by
    show (access_token_marker ++ rest).drop 14 = rest
    rw [show (14 : Nat) = access_token_marker.length from rfl]
    exact List.drop_left _ _
  have hlen : (access_token_marker ++ rest).length = (13 + rest.length) + 1 := by
    rw [List.length_append, show access_token_marker.length = 14 from rfl]
    omega
  rw [hlen, show access_token_marker ++ rest =
    '"' :: (['a', 'c', 'c', 'e', 's', 's', '_', 't', 'o', 'k', 'e', 'n', '"'] ++ rest) from rfl]
  simp only [update_tokens_from_refresh_token_loop]
  rw [if_pos htake, hdrop]
  exact refresh_loop_fuel_irrel (13 + rest.length) rest _ (by omega)

lemma refresh_scan_refresh (rest : List Char) (st : TokState) :
    update_tokens_from_refresh_token (refresh_token_marker ++ rest) st =
      update_tokens_from_refresh_token rest
        { st with refresh := get_next_quoted_string rest } := by
  unfold update_tokens_from_refresh_token
  have hne1 : ¬ ('"' :: (['r', 'e', 'f', 'r', 'e', 's', 'h', '_', 't', 'o', 'k', 'e', 'n', '"'] ++ rest)).take 14
      = access_token_marker := by
    show ¬ (refresh_token_marker ++ rest).take 14 = access_token_marker
    rw [List.take_append_of_le_length (by decide)]
    decide
  have htake : ('"' :: (['r', 'e', 'f', 'r', 'e', 's', 'h', '_', 't', 'o', 'k', 'e', 'n', '"'] ++ rest)).take 15
      = refresh_token_marker := by
    show (refresh_token_marker ++ rest).take 15 = refresh_token_marker
    rw [show (15 : Nat) = refresh_token_marker.length from rfl]
    exact List.take_left _ _
  have hdrop : ('"' :: (['r', 'e', 'f', 'r', 'e', 's', 'h', '_', 't', 'o', 'k', 'e', 'n', '"'] ++ rest)).drop 15
      = rest := by
    show (refresh_token_marker ++ rest).drop 15 = rest
    rw [show (15 : Nat) = refresh_token_marker.length from rfl]
    exact List.drop_left _ _
  have hlen : (refresh_token_marker ++ rest).length = (14 + rest.length) + 1 := by
    rw [List.length_append, show refresh_token_marker.length = 15 from rfl]
    omega
  rw [hlen, show refresh_token_marker ++ rest =
    '"' :: (['r', 'e', 'f', 'r', 'e', 's', 'h', '_', 't', 'o', 'k', 'e', 'n', '"'] ++ rest) from rfl]
  simp only [update_tokens_from_refresh_token_loop]
  rw [if_neg hne1, if_pos htake, hdrop]
  exact refresh_loop_fuel_irrel (14 + rest.length) rest _ (by omega)

lemma refresh_scan_expires (rest : List Char) (st : TokState) :
    update_tokens_from_refresh_token (expires_on_marker ++ rest) st =
      update_tokens_from_refresh_token rest
        { st with expiry := parse_ulong (get_next_quoted_string rest) st.expiry } := by
  unfold update_tokens_from_refresh_token
  have hne1 : ¬ ('"' :: (['e', 'x', 'p', 'i', 'r', 'e', 's', '_', 'o', 'n', '"'] ++ rest)).take 14
      = access_token_marker := by
    show ¬ (expires_on_marker ++ rest).take 14 = access_token_marker
    intro hc
    have h12 := congrArg (List.take 12) hc
    rw [List.take_take, show min 12 14 = 12 from rfl,
      show (12 : Nat) = expires_on_marker.length from rfl, List.take_left] at h12
    exact absurd h12 (by decide)
  have hne2 : ¬ ('"' :: (['e', 'x', 'p', 'i', 'r', 'e', 's', '_', 'o', 'n', '"'] ++ rest)).take 15
      = refresh_token_marker := by
    show ¬ (expires_on_marker ++ rest).take 15 = refresh_token_marker
    intro hc
    have h12 := congrArg (List.take 12) hc
    rw [List.take_take, show min 12 15 = 12 from rfl,
      show (12 : Nat) = expires_on_marker.length from rfl, List.take_left] at h12
    exact absurd h12 (by decide)
  have htake : ('"' :: (['e', 'x', 'p', 'i', 'r', 'e', 's', '_', 'o', 'n', '"'] ++ rest)).take 12
      = expires_on_marker := by
    show (expires_on_marker ++ rest).take 12 = expires_on_marker
    rw [show (12 : Nat) = expires_on_marker.length from rfl]
    exact List.take_left _ _
  have hdrop : ('"' :: (['e', 'x', 'p', 'i', 'r', 'e', 's', '_', 'o', 'n', '"'] ++ rest)).drop 12
      = rest := by
    show (expires_on_marker ++ rest).drop 12 = rest
    rw [show (12 : Nat) = expires_on_marker.length from rfl]
    exact List.drop_left _ _
  have hlen : (expires_on_marker ++ rest).length = (11 + rest.length) + 1 := by
    rw [List.length_append, show expires_on_marker.length = 12 from rfl]
    omega
  rw [hlen, show expires_on_marker ++ rest =
    '"' :: (['e', 'x', 'p', 'i', 'r', 'e', 's', '_', 'o', 'n', '"'] ++ rest) from rfl]
  simp only [update_tokens_from_refresh_token_loop]
  rw [if_neg hne1, if_neg hne2, if_pos htake, hdrop]
  exact refresh_loop_fuel_irrel (11 + rest.length) rest _ (by omega)

lemma fqi_skip : ∀ (pre : List Char), '"' ∉ pre → ∀ (rest : List Char) (i : Nat),
    find_quote_indices (pre ++ rest) i none none =
      find_quote_indices rest (i + pre.length) none none := by
  intro pre
  induction pre with
  | nil => intro _ rest i; simp
  | cons c cs ih =>
    intro h rest i
    have hc : ¬ c = '"' := fun hcq => h (by simp [hcq])
    have h2 : '"' ∉ cs := fun hm => h (List.mem_cons_of_mem _ hm)
    rw [List.cons_append]
    simp only [find_quote_indices]
    rw [if_neg hc, ih h2 rest (i + 1)]
    congr 1
    simp only [List.length_cons]
    omega

lemma fqi_mid : ∀ (mid : List Char), '"' ∉ mid → ∀ (rest : List Char) (i j : Nat),
    find_quote_indices (mid ++ rest) i (some j) none =
      find_quote_indices rest (i + mid.length) (some j) none := by
  intro mid
  induction mid with
  | nil => intro _ rest i j; simp
  | cons c cs ih =>
    intro h rest i j
    have hc : ¬ c = '"' := fun hcq => h (by simp [hcq])
    have h2 : '"' ∉ cs := fun hm => h (List.mem_cons_of_mem _ hm)
    rw [List.cons_append]
    simp only [find_quote_indices]
    rw [if_neg hc, ih h2 rest (i + 1) j]
    congr 1
    simp only [List.length_cons]
    omega

lemma fqi_done : ∀ (post : List Char) (i i1 i2 : Nat),
    find_quote_indices post i (some i1) (some i2) = (some i1, some i2) := by
  intro post
  induction post with
  | nil => intro i i1 i2; rfl
  | cons c cs ih =>
    intro i i1 i2
    simp only [find_quote_indices]
    by_cases h : c = '"'
    · rw [if_pos h]
    · rw [if_neg h, ih]

lemma get_next_quoted_string_spec (pre mid post : List Char)
    (hpre : '"' ∉ pre) (hmid : '"' ∉ mid) :
    get_next_quoted_string (pre ++ '"' :: (mid ++ '"' :: post)) = mid := by
  unfold get_next_quoted_string
  rw [fqi_skip pre hpre _ 0]
  simp only [find_quote_indices, ite_true]
  rw [fqi_mid mid hmid _ _ _]
  simp only [find_quote_indices, ite_true]
  rw [fqi_done]
  show ((pre ++ '"' :: (mid ++ '"' :: post)).drop (0 + pre.length + 1)).take
    (0 + pre.length + 1 + mid.length - 1 + 1 - (0 + pre.length + 1)) = mid
  rw [show 0 + pre.length + 1 + mid.length - 1 + 1 - (0 + pre.length + 1) = mid.length by omega]
  rw [show pre ++ '"' :: (mid ++ '"' :: post) =
    (pre ++ ['"']) ++ (mid ++ '"' :: post) by simp]
  rw [show 0 + pre.length + 1 = (pre ++ ['"']).length by simp]
  rw [List.drop_left]
  exact List.take_left _ _

/-- C7: for every token-response body, the extraction scan recognizes
the field markers `"access_token"`, `"refresh_token"` and
`"expires_on"`; on a marker it stores the substring strictly between
the next two quote characters after the marker and resumes the scan
just past the marker match (first three conjuncts, for an arbitrary
remainder of the body); the value extracted is exactly the characters
strictly between the first two quotes of the remainder (fourth
conjunct); and on the concrete body
`{"access_token":"AAA","expires_on":"123456","refresh_token":"BBB"}`,
in all six field orders, it yields bearer token AAA, expiry 123456 and
refresh token BBB. -/
theorem C7_token_extraction :
    (∀ rest st, update_tokens_from_refresh_token (access_token_marker ++ rest) st =
      update_tokens_from_refresh_token rest
        { st with bearer := get_next_quoted_string rest })
    ∧ (∀ rest st, update_tokens_from_refresh_token (refresh_token_marker ++ rest) st =
      update_tokens_from_refresh_token rest
        { st with refresh := get_next_quoted_string rest })
    ∧ (∀ rest st, update_tokens_from_refresh_token (expires_on_marker ++ rest) st =
      update_tokens_from_refresh_token rest
        { st with expiry := parse_ulong (get_next_quoted_string rest) st.expiry })
    ∧ (∀ pre mid post, '"' ∉ pre → '"' ∉ mid →
      get_next_quoted_string (pre ++ '"' :: (mid ++ '"' :: post)) = mid)
    ∧ update_tokens_from_refresh_token
        ("\x7b\"access_token\":\"AAA\",\"expires_on\":\"123456\",\"refresh_token\":\"BBB\"\x7d").toList
        ⟨['x'], ['y'], 0⟩ = ⟨['A', 'A', 'A'], ['B', 'B', 'B'], 123456⟩
    ∧ update_tokens_from_refresh_token
        ("\x7b\"access_token\":\"AAA\",\"refresh_token\":\"BBB\",\"expires_on\":\"123456\"\x7d").toList
        ⟨['x'], ['y'], 0⟩ = ⟨['A', 'A', 'A'], ['B', 'B', 'B'], 123456⟩
    ∧ update_tokens_from_refresh_token
        ("\x7b\"expires_on\":\"123456\",\"access_token\":\"AAA\",\"refresh_token\":\"BBB\"\x7d").toList
        ⟨['x'], ['y'], 0⟩ = ⟨['A', 'A', 'A'], ['B', 'B', 'B'], 123456⟩
    ∧ update_tokens_from_refresh_token
        ("\x7b\"expires_on\":\"123456\",\"refresh_token\":\"BBB\",\"access_token\":\"AAA\"\x7d").toList
        ⟨['x'], ['y'], 0⟩ = ⟨['A', 'A', 'A'], ['B', 'B', 'B'], 123456⟩
    ∧ update_tokens_from_refresh_token
        ("\x7b\"refresh_token\":\"BBB\",\"access_token\":\"AAA\",\"expires_on\":\"123456\"\x7d").toList
        ⟨['x'], ['y'], 0⟩ = ⟨['A', 'A', 'A'], ['B', 'B', 'B'], 123456⟩
    ∧ update_tokens_from_refresh_token
        ("\x7b\"refresh_token\":\"BBB\",\"expires_on\":\"123456\",\"access_token\":\"AAA\"\x7d").toList
        ⟨['x'], ['y'], 0⟩ = ⟨['A', 'A', 'A'], ['B', 'B', 'B'], 123456⟩ :=
  ⟨refresh_scan_access, refresh_scan_refresh, refresh_scan_expires,
    get_next_quoted_string_spec, by decide, by decide, by decide, by decide,
    by decide, by decide⟩

/-- C7 witness: the quoted-value conjunct applied at the concrete
remainder `:"AAA",`. -/
theorem C7_token_extraction_witness :
    '"' ∉ [':'] ∧ '"' ∉ ['A', 'A', 'A'] ∧
    get_next_quoted_string ([':'] ++ '"' :: (['A', 'A', 'A'] ++ '"' :: [','])) =
      ['A', 'A', 'A'] :=
  ⟨by decide, by decide,
    C7_token_extraction.2.2.2.1 [':'] ['A', 'A', 'A'] [','] (by decide) (by decide)⟩

/-- The credential the token functions mutate in place: the
`bearer_token` buffer, the optional `refresh_token` buffer (a NULL
pointer in C when absent), the optional `client_secret` (NULL when
absent), and `expiry` in epoch seconds (`unsigned long`, `< 2^64`). -/
structure Credential where
  bearer : List Char
  refresh : Option (List Char)
  client_secret : Option (List Char)
  expiry : Nat
deriving DecidableEq, Repr

/-- Embeds the post-transport tail of
`curl_refresh_tokens_from_refresh_token` (AzStorage.c lines 317-325):
after the attempt returns `(responsecode_curl, responsecode_http)` and
the accumulated body, the code warns when
`(curl != CURLE_OK || http >= 300) && verbose > 0`; in every other case
— including failed attempts when `verbose == 0` — it parses the body
into the caller's token buffers.  (When the transport delivered no
body the C code hands `datastruct.data = NULL` to `strlen` inside
`update_tokens_from_refresh_token`, undefined behaviour; the model
takes the delivered body as a list.) -/
def refresh_token_flow_update (curl http : Int) (verbose : Int)
    (body : List Char) (st : TokState) : TokState :=
  if (curl ≠ 0 ∨ http ≥ 300) ∧ verbose > 0 then st
  else update_tokens_from_refresh_token body st

/-- Embeds the post-transport tail of
`curl_refresh_tokens_from_client_credentials` (AzStorage.c lines
441-449): same shape as the refresh-token flow, parsing with
`update_tokens_from_client_secret`. -/
def client_secret_flow_update (curl http : Int) (verbose : Int)
    (body : List Char) (st : TokState) : TokState :=
  if (curl ≠ 0 ∨ http ≥ 300) ∧ verbose > 0 then st
  else update_tokens_from_client_secret body st

/-- Embeds `curl_refresh_tokens` (AzStorage.c lines 463-497).  `now` is
`(unsigned long) time(NULL)`; the freshness test
`current_time < (*expiry - 600)` is unsigned 64-bit arithmetic, so for
`expiry < 600` the subtraction wraps around.  The transport outcome of
the selected OAuth2 flow is the oracle pair `(flow_codes, flow_body)`
(`flow_codes.retry_after` being what the flow captured from the
Retry-After header); `uninit_ra` stands for the indeterminate
`retry_after` field of the stack `struct ResponseCodes` returned on the
fresh path, which the C code never assigns there.  Returns the response
codes, the credential after the call, and the number of times an OAuth2
flow was invoked. -/
def curl_refresh_tokens (now : Nat) (cred : Credential)
    (flow_codes : ResponseCodes) (flow_body : List Char) (verbose : Int)
    (uninit_ra : Int) : ResponseCodes × Credential × Nat :=
  if now % 2 ^ 64 < (cred.expiry + 2 ^ 64 - 600) % 2 ^ 64 then
    (⟨200, 0, uninit_ra⟩, cred, 0)
  else if cred.refresh.isNone && cred.client_secret.isSome then
    (flow_codes,
      { cred with
        bearer := (client_secret_flow_update flow_codes.curl flow_codes.http
          verbose flow_body ⟨cred.bearer, [], cred.expiry⟩).bearer
        expiry := (client_secret_flow_update flow_codes.curl flow_codes.http
          verbose flow_body ⟨cred.bearer, [], cred.expiry⟩).expiry }, 1)
  else if cred.refresh.isSome then
    (flow_codes,
      { cred with
        bearer := (refresh_token_flow_update flow_codes.curl flow_codes.http
          verbose flow_body ⟨cred.bearer, cred.refresh.getD [], cred.expiry⟩).bearer
        refresh := some (refresh_token_flow_update flow_codes.curl flow_codes.http
          verbose flow_body ⟨cred.bearer, cred.refresh.getD [], cred.expiry⟩).refresh
        expiry := (refresh_token_flow_update flow_codes.curl flow_codes.http
          verbose flow_body ⟨cred.bearer, cred.refresh.getD [], cred.expiry⟩).expiry }, 1)
  else
    (⟨1000, 1000, 0⟩, cred, 0)

/-- C4 counterexample.  First part: with `expiry = 0` (more generally
`expiry < 600`) the unsigned subtraction `*expiry - 600` wraps to
`2^64 - 600`, so at `now = 1000` — where the mathematical comparison
`now < expiry - 600` is false and the claim demands a refresh attempt —
the code takes the fresh path: it returns success and performs zero
flow invocations.  Second part: at `now = 10000`, `expiry = 9000` the
grace period has expired, yet for a credential with neither refresh
token nor client secret the code performs zero refresh attempts, not
exactly one. -/
theorem C4_counterexample :
    ((curl_refresh_tokens 1000 ⟨['t'], none, some ['s'], 0⟩ ⟨0, 0, 0⟩ [] 0 0) =
      (⟨200, 0, 0⟩, ⟨['t'], none, some ['s'], 0⟩, 0)
      ∧ ¬ ((1000 : Int) < (0 : Int) - 600))
    ∧ (curl_refresh_tokens 10000 ⟨['t'], none, none, 9000⟩ ⟨0, 0, 0⟩ [] 0 0).2.2 = 0 := by
  refine ⟨⟨?_, by norm_num⟩, ?_⟩
  · rfl
  · rfl

/-- C4 (amended): the freshness comparison is unsigned 64-bit
(wrapping) arithmetic, not mathematical integers.  For every call, the
entry point is a no-op returning success (http 200, curl OK, the
`retry_after` field left indeterminate) with the credential unmodified
and zero flow invocations iff `now < (expiry - 600) mod 2^64`; at or
past that boundary it performs exactly one refresh-flow invocation
whenever the credential has a refresh token or a client secret (and
zero otherwise, see C6); and whenever `expiry ≥ 600` the wrapping
comparison agrees with the mathematical `now < expiry - 600`. -/
theorem C4_token_refresh_grace (now : Nat) (cred : Credential)
    (fc : ResponseCodes) (body : List Char) (verbose : Int) (ra : Int)
    (hnow : now < 2 ^ 64) (hexp : cred.expiry < 2 ^ 64) :
    ((curl_refresh_tokens now cred fc body verbose ra =
        (⟨200, 0, ra⟩, cred, 0) ∧
      (curl_refresh_tokens now cred fc body verbose ra).2.2 = 0) ↔
      now % 2 ^ 64 < (cred.expiry + 2 ^ 64 - 600) % 2 ^ 64)
    ∧ (¬ now % 2 ^ 64 < (cred.expiry + 2 ^ 64 - 600) % 2 ^ 64 →
        (cred.refresh.isSome || cred.client_secret.isSome) = true →
        (curl_refresh_tokens now cred fc body verbose ra).2.2 = 1)
    ∧ (600 ≤ cred.expiry →
        (now % 2 ^ 64 < (cred.expiry + 2 ^ 64 - 600) % 2 ^ 64 ↔
          (now : Int) < (cred.expiry : Int) - 600)) := by
  obtain ⟨b, rt, cs, e⟩ := cred
  dsimp only at hexp ⊢
  refine ⟨⟨?_, ?_⟩, ?_, ?_⟩
  · rintro ⟨heq, -⟩
    by_contra hfresh
    unfold curl_refresh_tokens at heq
    rw [if_neg hfresh] at heq
    rcases rt with _ | rt <;> rcases cs with _ | cs <;> simp at heq
  · intro h
    unfold curl_refresh_tokens
    rw [if_pos h]
    exact ⟨rfl, rfl⟩
  · intro hfresh hsome
    unfold curl_refresh_tokens
    rw [if_neg hfresh]
    rcases rt with _ | rt <;> rcases cs with _ | cs <;> simp at hsome ⊢
  · intro h600
    have h1 : now % 2 ^ 64 = now := Nat.mod_eq_of_lt hnow
    have h2 : (e + 2 ^ 64 - 600) % 2 ^ 64 = e - 600 := by omega
    rw [h1, h2]
    omega

/-- C4 witness: a credential expiring far in the future is fresh, and
the entry point is a success no-op there. -/
theorem C4_token_refresh_grace_witness :
    (0 : Nat) < 2 ^ 64 ∧
    curl_refresh_tokens 0 ⟨['t'], none, some ['s'], 1000000⟩ ⟨0, 0, 0⟩ [] 0 0 =
      (⟨200, 0, 0⟩, ⟨['t'], none, some ['s'], 1000000⟩, 0) := by
  refine ⟨by norm_num, ?_⟩
  exact ((C4_token_refresh_grace 0 ⟨['t'], none, some ['s'], 1000000⟩ ⟨0, 0, 0⟩ [] 0 0
    (by norm_num) (by norm_num)).1.mpr (by decide)).1

lemma curl_retry_stop (http_codes curl_codes : List Int)
    (op : Nat → ResponseCodes) (sleep_fails : Nat → Bool) (nretry : Nat)
    (h : 1 ≤ nretry)
    (hnr : isrestretrycode http_codes curl_codes (op 0) = false) :
    curl_retry http_codes curl_codes op sleep_fails nretry =
      ⟨some (op 0), 1, 0⟩ := by
  obtain ⟨f, rfl⟩ : ∃ f, nretry = f + 1 := ⟨nretry - 1, by omega⟩
  unfold curl_retry
  exact retry_loop_stop _ op sleep_fails 0 f hnr

lemma isrestretrycode_eq_false (http_codes curl_codes : List Int)
    (rc : ResponseCodes) (h1 : rc.http ∉ http_codes) (h2 : rc.curl ∉ curl_codes) :
    isrestretrycode http_codes curl_codes rc = false := by
  unfold isrestretrycode
  rw [Bool.or_eq_false_iff]
  exact ⟨by simp [h1], by simp [h2]⟩

/-- C6: when a refresh is due (the credential is not within its grace
period) and the credential has neither a refresh token nor a client
secret, `curl_refresh_tokens` makes no flow invocation, returns the
sentinel status (http 1000, curl 1000, retry_after 0) and leaves the
credential unmodified; and as long as the configured retry tables do
not list code 1000 (the repository's initializer installs only genuine
transient transport/protocol codes), the sentinel is classified
non-retryable, so the surrounding `curl_refresh_tokens_retry` loop
performs exactly one invocation and no backoff sleep. -/
theorem C6_config_error (now : Nat) (b : List Char) (e : Nat)
    (fc : ResponseCodes) (body : List Char) (verbose : Int) (ra : Int)
    (http_codes curl_codes : List Int) (sleep_fails : Nat → Bool) (nretry : Nat)
    (hfresh : ¬ now % 2 ^ 64 < (e + 2 ^ 64 - 600) % 2 ^ 64)
    (hn : 1 ≤ nretry)
    (h1 : (1000 : Int) ∉ http_codes) (h2 : (1000 : Int) ∉ curl_codes) :
    curl_refresh_tokens now ⟨b, none, none, e⟩ fc body verbose ra =
      (⟨1000, 1000, 0⟩, ⟨b, none, none, e⟩, 0)
    ∧ isrestretrycode http_codes curl_codes ⟨1000, 1000, 0⟩ = false
    ∧ curl_retry http_codes curl_codes
        (fun _ => (curl_refresh_tokens now ⟨b, none, none, e⟩ fc body verbose ra).1)
        sleep_fails nretry =
      ⟨some ⟨1000, 1000, 0⟩, 1, 0⟩ := by
  have hmain : curl_refresh_tokens now ⟨b, none, none, e⟩ fc body verbose ra =
      (⟨1000, 1000, 0⟩, ⟨b, none, none, e⟩, 0) := by
    unfold curl_refresh_tokens
    rw [if_neg hfresh]
    rfl
  have hnr : isrestretrycode http_codes curl_codes ⟨1000, 1000, 0⟩ = false :=
    isrestretrycode_eq_false http_codes curl_codes ⟨1000, 1000, 0⟩ h1 h2
  refine ⟨hmain, hnr, ?_⟩
  have hop : (fun _ : Nat =>
      (curl_refresh_tokens now ⟨b, none, none, e⟩ fc body verbose ra).1) =
      fun _ : Nat => (⟨1000, 1000, 0⟩ : ResponseCodes) := by
    funext i
    rw [hmain]
  rw [hop]
  exact curl_retry_stop http_codes curl_codes _ sleep_fails nretry hn hnr

/-- C6 witness: the theorem applied at a due credential (`now = 10000`,
`expiry = 9000`), retry tables {503} and {7}, budget 3. -/
theorem C6_config_error_witness :
    (1 : Nat) ≤ 3 ∧
    curl_refresh_tokens 10000 ⟨['t'], none, none, 9000⟩ ⟨0, 0, 0⟩ [] 0 0 =
      (⟨1000, 1000, 0⟩, ⟨['t'], none, none, 9000⟩, 0) := by
  refine ⟨by norm_num, ?_⟩
  exact (C6_config_error 10000 ['t'] 9000 ⟨0, 0, 0⟩ [] 0 0 [503] [7]
    (fun _ => false) 3 (by decide) (by norm_num) (by decide) (by decide)).1

/-- C10: the claim is right and the code is wrong.  In both OAuth2
flows the body parse is guarded by
`if ((curl != CURLE_OK || http >= 300) && verbose > 0) warn; else
update_tokens(...)`: the `verbose > 0` conjunct belongs to the warning
only, so with `verbose = 0` a FAILED attempt falls into the `else`
branch and parses the error response body into the credential.
Evaluations: a failed refresh-token attempt (http 503) with
`verbose = 0` and a body carrying `"access_token":"EVIL"` overwrites
the bearer token (first conjunct), and likewise for the
client-credentials flow (second conjunct); with `verbose = 1` the same
failed attempt leaves every field unchanged (third and fourth
conjuncts), as the claim demands for all verbosity settings. -/
theorem C10_failed_refresh_parses_error_body :
    (refresh_token_flow_update 0 503 0
      ("\"access_token\":\"EVIL\"").toList ⟨['o', 'l', 'd'], ['r'], 5⟩).bearer
      = ['E', 'V', 'I', 'L']
    ∧ (client_secret_flow_update 0 503 0
      ("\"access_token\":\"EVIL\"").toList ⟨['o', 'l', 'd'], [], 5⟩).bearer
      = ['E', 'V', 'I', 'L']
    ∧ refresh_token_flow_update 0 503 1
      ("\"access_token\":\"EVIL\"").toList ⟨['o', 'l', 'd'], ['r'], 5⟩
      = ⟨['o', 'l', 'd'], ['r'], 5⟩
    ∧ client_secret_flow_update 0 503 1
      ("\"access_token\":\"EVIL\"").toList ⟨['o', 'l', 'd'], [], 5⟩
      = ⟨['o', 'l', 'd'], [], 5⟩ := by
  refine ⟨by decide, by decide, by decide, by decide⟩
